import Mathlib

/-!
Verification of the SakuyaEngine game-engine core.

The development shallowly embeds the Python sources:
* `src/SakuyaEngine/math.py` — `move_toward`, `eval_segment_intersection`, `raycast`;
* `src/scene.py` — `Scene.advance_frame`, `Scene.test_collisions`, `Scene.name`;
* `src/SakuyaEngine/client.py` — `Client.add_scene`, `Client.remove_scene`, the
  main loop's deleted-scene drain and its empty-table guard.

Real-valued quantities are embedded as rationals (`ℚ`), so every definition is
executable and every comparison is exact.
-/

/-- A 2-D point, embedding `pygame.Vector2` / coordinate pairs as a pair of rationals. -/
abbrev Pt := ℚ × ℚ

/-- The denominator `dem = (x1 - x2) * (y3 - y4) - (y1 - y2) * (x3 - x4)` computed by
`eval_segment_intersection` in `src/SakuyaEngine/math.py`. -/
def dem (p1 p2 p3 p4 : Pt) : ℚ :=
  (p1.1 - p2.1) * (p3.2 - p4.2) - (p1.2 - p2.2) * (p3.1 - p4.1)

/-- The parameter `t` of `eval_segment_intersection`: the numerator
`(x1 - x3) * (y3 - y4) - (y1 - y3) * (x3 - x4)` divided by `dem`
(the source computes the numerator and then performs `t /= dem`). -/
def tval (p1 p2 p3 p4 : Pt) : ℚ :=
  ((p1.1 - p3.1) * (p3.2 - p4.2) - (p1.2 - p3.2) * (p3.1 - p4.1)) / dem p1 p2 p3 p4

/-- The parameter `u` of `eval_segment_intersection`: the numerator
`(x1 - x3) * (y1 - y2) - (y1 - y3) * (x1 - x2)` divided by `dem`. -/
def uval (p1 p2 p3 p4 : Pt) : ℚ :=
  ((p1.1 - p3.1) * (p1.2 - p2.2) - (p1.2 - p3.2) * (p1.1 - p2.1)) / dem p1 p2 p3 p4

/-- Embedding of `eval_segment_intersection` from `src/SakuyaEngine/math.py`:
if `dem == 0` return `point2`; otherwise compute `t` and `u`, and when
`0 < t < 1 and 0 < u < 1` return `(x3 + u * (x4 - x3), y3 + u * (y4 - y3))`,
else return `point2`. -/
def eval_segment_intersection (p1 p2 p3 p4 : Pt) : Pt :=
  if dem p1 p2 p3 p4 = 0 then p2
  else if 0 < tval p1 p2 p3 p4 ∧ tval p1 p2 p3 p4 < 1 ∧
          0 < uval p1 p2 p3 p4 ∧ uval p1 p2 p3 p4 < 1 then
    (p3.1 + uval p1 p2 p3 p4 * (p4.1 - p3.1), p3.2 + uval p1 p2 p3 p4 * (p4.2 - p3.2))
  else p2

/-- Squared Euclidean distance. The source (`raycast`) computes
`math.sqrt((x1 - c[0]) ** 2 + (y1 - c[1]) ** 2)` and compares such lengths with `>`;
since `sqrt` is strictly increasing on nonnegative reals, comparing the squares with `>`
decides exactly the same comparisons, so the embedding tracks squared lengths in `ℚ`. -/
def distSq (a b : Pt) : ℚ := (a.1 - b.1) ^ 2 + (a.2 - b.2) ^ 2

/-- The loop of `raycast` from `src/SakuyaEngine/math.py`: fold over the wall list
keeping `highest_point` and its (squared) length `sort_point_length`; a wall's
intersection replaces the tracked point exactly when its length is strictly smaller. -/
def raycastGo (coord1 coord2 : Pt) : List (Pt × Pt) → Pt → ℚ → Pt
  | [], highest_point, _ => highest_point
  | w :: ws, highest_point, sort_point_length =>
    let c := eval_segment_intersection coord1 coord2 w.1 w.2
    let c_length := distSq coord1 c
    if sort_point_length > c_length then raycastGo coord1 coord2 ws c c_length
    else raycastGo coord1 coord2 ws highest_point sort_point_length

/-- Embedding of `raycast` from `src/SakuyaEngine/math.py`: starting from
`highest_point = coord2` and `sort_point_length = line_length` (the distance from
`coord1` to `coord2`), scan the walls and return the tracked point. -/
def raycast (coord1 coord2 : Pt) (walls : List (Pt × Pt)) : Pt :=
  raycastGo coord1 coord2 walls coord2 (distSq coord1 coord2)

/-- A wall qualifies as a hit for the ray `(p1, p2)`: `eval_segment_intersection`
takes its non-sentinel branch, i.e. `dem ≠ 0` and both parameters are strictly
inside `(0, 1)`. -/
abbrev qualifies (p1 p2 : Pt) (w : Pt × Pt) : Prop :=
  dem p1 p2 w.1 w.2 ≠ 0 ∧
  0 < tval p1 p2 w.1 w.2 ∧ tval p1 p2 w.1 w.2 < 1 ∧
  0 < uval p1 p2 w.1 w.2 ∧ uval p1 p2 w.1 w.2 < 1

/-- The intersection point `(x3 + u * (x4 - x3), y3 + u * (y4 - y3))` that
`eval_segment_intersection` returns for a qualifying wall. -/
def hitPoint (p1 p2 : Pt) (w : Pt × Pt) : Pt :=
  (w.1.1 + uval p1 p2 w.1 w.2 * (w.2.1 - w.1.1),
   w.1.2 + uval p1 p2 w.1 w.2 * (w.2.2 - w.1.2))

/-- Result of `move_toward` from `src/SakuyaEngine/math.py`: either the
`NegativeSpeedError` exception, a returned number, or the implicit `return None`
fall-through at the end of the function body. -/
inductive MoveResult where
  | raiseNegativeSpeed : MoveResult
  | val : ℚ → MoveResult
  | noReturn : MoveResult
deriving DecidableEq

/-- Embedding of `move_toward(origin, target, speed)` from `src/SakuyaEngine/math.py`:
raise `NegativeSpeedError` when `speed < 0`; return `target` when
`abs(target - origin) <= speed`; return `origin + speed` when `target - origin > speed`;
return `origin - speed` when `target - origin < speed`; otherwise fall through
(Python implicitly returns `None`). -/
def move_toward (origin target speed : ℚ) : MoveResult :=
  if speed < 0 then .raiseNegativeSpeed
  else if |target - origin| ≤ speed then .val target
  else if target - origin > speed then .val (origin + speed)
  else if target - origin < speed then .val (origin - speed)
  else .noReturn

/-- One iteration of the caller-side loop the docstring of `move_toward` prescribes
("Must put in a loop until it's reach its goal"): apply `move_toward` and keep the
returned number (the non-`val` outcomes never occur for nonnegative speeds). -/
def moveStep (target speed x : ℚ) : ℚ :=
  match move_toward x target speed with
  | .val v => v
  | _ => x

/-- Entity-facing state of a scene, for `Scene.advance_frame` and
`Scene.test_collisions` in `src/scene.py`. Python entities are heap objects mutated
in place, so the embedding separates object identity (a natural-number reference held
in the `entities` list) from object state (the `store` map); `Entity.update` and the
`_is_destroyed` flag live in the absent `entity.py` and are taken as parameters
(`upd`, `dstr`) — the spec describes `update` as the entity's self-directed per-tick
hook, so it acts on the entity's own state only. -/
structure SceneEnt (σ : Type) where
  entities : List ℕ
  store : ℕ → σ

/-- The loop of `Scene.advance_frame` from `src/scene.py`: for each object of the
snapshot `self.entities[:]`, run `object.update(delta_time)` (mutating the object in
the store), then, if `object._is_destroyed`, remove the object from the live
`self.entities` list (`list.remove` deletes the first occurrence). -/
def advanceGo {σ : Type} (upd : σ → σ) (dstr : σ → Bool) :
    List ℕ → SceneEnt σ → SceneEnt σ
  | [], st => st
  | r :: rest, st =>
    let st1 : SceneEnt σ := ⟨st.entities, Function.update st.store r (upd (st.store r))⟩
    let st2 : SceneEnt σ :=
      if dstr (st1.store r) then ⟨st1.entities.erase r, st1.store⟩ else st1
    advanceGo upd dstr rest st2

/-- Embedding of `Scene.advance_frame` from `src/scene.py`: iterate over a snapshot
of `self.entities` taken at entry. -/
def advance_frame {σ : Type} (upd : σ → σ) (dstr : σ → Bool) (st : SceneEnt σ) :
    SceneEnt σ :=
  advanceGo upd dstr st.entities st

/-- An axis-aligned rectangle `(x, y, w, h)`, embedding `pygame.Rect`. -/
structure Rect where
  x : ℚ
  y : ℚ
  w : ℚ
  h : ℚ
deriving DecidableEq

/-- Modelled from the spec: `pygame.Rect.colliderect`, absent from `src/`; per §4.2
two axis-aligned rectangles overlap iff their x-ranges and y-ranges both overlap,
which is pygame's `a.x < b.x + b.w and b.x < a.x + a.w and a.y < b.y + b.h and
b.y < a.y + a.h`. -/
def Rect.colliderect (a b : Rect) : Bool :=
  decide (a.x < b.x + b.w ∧ b.x < a.x + a.w ∧ a.y < b.y + b.h ∧ b.y < a.y + a.h)

/-- Embedding of `Scene.test_collisions` from `src/scene.py`: copy the entity list,
`remove` the queried entity (a failing `remove` is caught and re-raised as
`EntityNotInScene`, modelled by `none`), then collect the candidates whose hitbox
collides with the queried entity's hitbox. Entities are references with a `hitbox`
view, as in `SceneEnt`. -/
def test_collisions (hitbox : ℕ → Rect) (entities : List ℕ) (entity : ℕ) :
    Option (List ℕ) :=
  if entity ∈ entities then
    some ((entities.erase entity).filter fun e =>
      Rect.colliderect (hitbox entity) (hitbox e))
  else none

/-- A running scene as seen by `src/SakuyaEngine/client.py`. The `Scene` class it
uses lives in `SakuyaEngine/scene.py`, absent from `src/`; modelled from the spec:
a scene has a name derived from its concrete type (§3), an `on_awake` hook fired
once at instantiation and an `on_delete` hook fired once when removal is requested
(§4.2), recorded here as flags. `id` tracks object identity so that distinct
instantiations are distinguishable. -/
structure SceneObj where
  id : ℕ
  className : String
  awakened : Bool
  deleted : Bool
deriving DecidableEq

/-- Modelled from the spec (§3, SakuyaEngine/scene.py absent): the scene's
`name` property is derived from its concrete type. -/
def SceneObj.name (s : SceneObj) : String := s.className

/-- Modelled from the spec (§4.2): `on_awake` fires once at instantiation. -/
def SceneObj.on_awake (s : SceneObj) : SceneObj := { s with awakened := true }

/-- Modelled from the spec (§4.2): `on_delete` fires once when removal is requested. -/
def SceneObj.on_delete (s : SceneObj) : SceneObj := { s with deleted := true }

/-- Modelled from the spec (§4.3, SakuyaEngine/scene.py absent): instantiating a
registered prototype class produces a fresh, not-yet-awakened instance. `add_scene`
reaches this through `copy(self.scene_manager.get_scene(scene_name))(self)` — the
shallow copy of a class is the class itself, and calling it constructs the instance. -/
def instantiate_scene (cls : String) (fresh : ℕ) : SceneObj :=
  ⟨fresh, cls, false, false⟩

/-- Lookup in an insertion-ordered string-keyed table (a Python `dict`). -/
def lookupA : List (String × SceneObj) → String → Option SceneObj
  | [], _ => none
  | (k, v) :: rest, key => if k = key then some v else lookupA rest key

/-- Assignment `table[key] = v` on a Python `dict`: replace in place when the key is
present, append otherwise. -/
def updateA : List (String × SceneObj) → String → SceneObj → List (String × SceneObj)
  | [], key, v => [(key, v)]
  | (k, v') :: rest, key, v =>
    if k = key then (k, v) :: rest else (k, v') :: updateA rest key v

/-- Deletion `del table[key]` on a Python `dict`; a missing key is a no-op here (the
caller in `Client.main` catches the `KeyError` and only logs it). -/
def eraseA : List (String × SceneObj) → String → List (String × SceneObj)
  | [], _ => []
  | (k, v) :: rest, key => if k = key then rest else (k, v) :: eraseA rest key

/-- State of `Client` from `src/SakuyaEngine/client.py` relevant to scene management:
the registry (`SceneManager.registered_scenes`, modelled from the spec §4.3 as the
set of registered class names, each class being stored under its own `__name__`),
the active-scene table `running_scenes`, the `deleted_scenes_queue`, and a counter
supplying fresh object identities. -/
structure ClientState where
  registered_scenes : List String
  running_scenes : List (String × SceneObj)
  deleted_scenes_queue : List String
  next_id : ℕ
deriving DecidableEq

/-- Embedding of `Client.add_scene` from `src/SakuyaEngine/client.py`:
`scene = copy(self.scene_manager.get_scene(scene_name))(self)` instantiates a fresh
copy of the registered prototype (`none` models the `KeyError` of an unregistered
name, not part of the claims), then `scene.on_awake(**kwargs)` runs, then the
instance is inserted under `scene.name`. -/
def add_scene (st : ClientState) (scene_name : String) : Option ClientState :=
  if scene_name ∈ st.registered_scenes then
    let scene := (instantiate_scene scene_name st.next_id).on_awake
    some { st with
      running_scenes := updateA st.running_scenes scene.name scene,
      next_id := st.next_id + 1 }
  else none

/-- Embedding of `Client.remove_scene` from `src/SakuyaEngine/client.py`: look up
`self.running_scenes[scene_name]["scene"]` (a `KeyError`, i.e. an absent name, is
turned into `SceneNotActiveError`, modelled by `none`); otherwise run
`scene.on_delete(**kwargs)` (mutating the object held by the table) and append
`scene.name` to `self.deleted_scenes_queue`. The table entry itself is not removed
here. -/
def remove_scene (st : ClientState) (scene_name : String) : Option ClientState :=
  match lookupA st.running_scenes scene_name with
  | none => none
  | some scene =>
    let scene' := scene.on_delete
    some { st with
      running_scenes := updateA st.running_scenes scene_name scene',
      deleted_scenes_queue := st.deleted_scenes_queue ++ [scene'.name] }

/-- The delete-queue drain of `Client.main` from `src/SakuyaEngine/client.py`:
for each name in a snapshot `self.deleted_scenes_queue[:]`, remove it from the live
queue and `del self.running_scenes[s]` (a `KeyError` is caught and logged). -/
def drainGo : List String → ClientState → ClientState
  | [], st => st
  | s :: rest, st =>
    drainGo rest { st with
      deleted_scenes_queue := st.deleted_scenes_queue.erase s,
      running_scenes := eraseA st.running_scenes s }

/-- One drain pass of the main loop over the deleted-scenes queue. -/
def drain_deleted_scenes (st : ClientState) : ClientState :=
  drainGo st.deleted_scenes_queue st

/-- The guard `if self.running_scenes == []` at the top of `Client.main`
(both `src/SakuyaEngine/client.py` and `src/client.py`). `running_scenes` is a
`dict`, and in Python a `dict` compares unequal to every `list` (`dict.__eq__`
returns `NotImplemented` for a list operand and cross-type `==` then yields
`False`), so the comparison is `False` for every table — including the empty one. -/
def running_scenes_eq_empty_list (_running : List (String × SceneObj)) : Bool :=
  false

/-- Whether an iteration of `Client.main` raises `NoActiveSceneError` at loop entry. -/
def main_loop_guard_fires (st : ClientState) : Bool :=
  running_scenes_eq_empty_list st.running_scenes

/-- An instance of the `Scene` class of `src/scene.py`, carrying the name of the
concrete class it was constructed from (`type(self).__name__`). -/
structure PyScene where
  concreteClass : String
deriving DecidableEq

/-- The value of the bare `__class__` cell inside the body of `Scene.name` in
`src/scene.py`. In Python 3, referencing `__class__` in a method body binds the
implicit closure cell that holds the class in which the method is textually defined
(the mechanism behind zero-argument `super()`), not the runtime type of `self`; for
a method defined in `class Scene`, that cell always holds `Scene`. -/
def scene_lexical_class_name : String := "Scene"

/-- Embedding of the `Scene.name` property of `src/scene.py`:
`return __class__.__name__`, which evaluates the lexical class cell. -/
def PyScene.name (_self : PyScene) : String := scene_lexical_class_name

/-- The name property as the spec states it (§3: "name: string (derived from its
type)"): the name of the instance's own concrete type. -/
def PyScene.nameSpec (self : PyScene) : String := self.concreteClass

/-- Initial client for the add/remove "Title" scenario: a scene class `Title` is
registered, nothing is running. -/
def title_client0 : ClientState := ⟨["Title"], [], [], 0⟩

/-- The `Title` instance right after `add_scene`: awakened, not deleted. -/
def title_scene_awake : SceneObj := ⟨0, "Title", true, false⟩

/-- Client after `add_scene "Title"`. -/
def title_client1 : ClientState := ⟨["Title"], [("Title", title_scene_awake)], [], 1⟩

/-- The `Title` instance after `remove_scene` ran its `on_delete` hook. -/
def title_scene_deleted : SceneObj := ⟨0, "Title", true, true⟩

/-- Client after `remove_scene "Title"`: the entry is still in the table, the name
is queued for deferred removal. -/
def title_client2 : ClientState :=
  ⟨["Title"], [("Title", title_scene_deleted)], ["Title"], 1⟩

/-- Client after the main loop drains the removal queue. -/
def title_client3 : ClientState := ⟨["Title"], [], [], 1⟩

/-- Scene used by the `advance_frame` witness: entity `0` destroys itself, entity
`1` survives (the stored `Bool` is the destroyed flag, updates leave it unchanged). -/
def scene_w : SceneEnt Bool := ⟨[0, 1], fun n => decide (n = 0)⟩

/-- Hitboxes for the `test_collisions` witness, the spec's §8 rectangles:
entity 0 at (0,0,10,10), entity 1 at (5,5,10,10), entity 2 at (20,20,5,5). -/
def hitbox_w : ℕ → Rect := fun n =>
  if n = 0 then ⟨0, 0, 10, 10⟩ else if n = 1 then ⟨5, 5, 10, 10⟩ else ⟨20, 20, 5, 5⟩

/-- C2: `eval_segment_intersection(p1,p2,p3,p4)` returns `p2` unchanged when
`dem = (x1-x2)(y3-y4) - (y1-y2)(x3-x4)` equals `0`; otherwise, with `t` and `u` the
standard parametric intersection values divided by `dem`, it returns the point
`(x3 + u*(x4-x3), y3 + u*(y4-y3))` exactly when `0 < t < 1` and `0 < u < 1` (both
strict), and returns `p2` in every other case. -/
theorem eval_segment_intersection_spec (p1 p2 p3 p4 : Pt) :
    (dem p1 p2 p3 p4 = 0 → eval_segment_intersection p1 p2 p3 p4 = p2) ∧
    (dem p1 p2 p3 p4 ≠ 0 →
      ((0 < tval p1 p2 p3 p4 ∧ tval p1 p2 p3 p4 < 1 ∧
        0 < uval p1 p2 p3 p4 ∧ uval p1 p2 p3 p4 < 1) →
        eval_segment_intersection p1 p2 p3 p4 =
          (p3.1 + uval p1 p2 p3 p4 * (p4.1 - p3.1),
           p3.2 + uval p1 p2 p3 p4 * (p4.2 - p3.2))) ∧
      (¬ (0 < tval p1 p2 p3 p4 ∧ tval p1 p2 p3 p4 < 1 ∧
          0 < uval p1 p2 p3 p4 ∧ uval p1 p2 p3 p4 < 1) →
        eval_segment_intersection p1 p2 p3 p4 = p2)) := by
  refine ⟨fun h0 => ?_, fun h0 => ⟨fun hin => ?_, fun hout => ?_⟩⟩
  · simp [eval_segment_intersection, h0]
  · simp [eval_segment_intersection, h0, hin]
  · simp [eval_segment_intersection, h0, hout]

/-- Witness for C2: two parallel horizontal segments have `dem = 0` and the
intersection call returns the second point of the first segment unchanged. -/
theorem eval_segment_intersection_spec_witness :
    dem (0, 0) (1, 0) (0, 1) (1, 1) = 0 ∧
    eval_segment_intersection (0, 0) (1, 0) (0, 1) (1, 1) = (1, 0) :=
  ⟨by simp [dem], (eval_segment_intersection_spec (0, 0) (1, 0) (0, 1) (1, 1)).1 (by simp [dem])⟩

/-- C8: the `name` property of `src/scene.py` does not return the concrete type's
name — for an instance of a subclass `Title`, `__class__.__name__` evaluates the
lexically enclosing class `Scene`, so `name` is `"Scene"` and differs from the
spec-mandated `"Title"`. -/
theorem scene_name_ignores_subclass :
    PyScene.name ⟨"Title"⟩ = "Scene" ∧
    PyScene.nameSpec ⟨"Title"⟩ = "Title" ∧
    PyScene.name ⟨"Title"⟩ ≠ PyScene.nameSpec ⟨"Title"⟩ := by
  refine ⟨rfl, rfl, ?_⟩
  decide

/-- C9: the empty-table guard of `Client.main` compares the `running_scenes` dict
with the empty list, which is `False` in Python even when the table is empty, so
`NoActiveSceneError` is never raised: at the failing input (a client whose
active-scene table is empty at loop entry) the guard does not fire. -/
theorem main_loop_guard_never_fires :
    (∀ st : ClientState, main_loop_guard_fires st = false) ∧
    main_loop_guard_fires ⟨[], [], [], 0⟩ = false ∧
    (⟨[], [], [], 0⟩ : ClientState).running_scenes.isEmpty = true :=
  ⟨fun _ => rfl, rfl, rfl⟩

/-- C10: for nonnegative speeds `move_toward` always returns a number: the
`abs`-snap, `origin + speed` and `origin - speed` branches are exhaustive, exactly
one of `target - origin > speed` and `target - origin < speed` holds whenever
`|target - origin| > speed`, and the implicit fall-through is unreachable. -/
theorem move_toward_no_fallthrough (o t s : ℚ) (hs : 0 ≤ s) :
    (∃ v : ℚ, move_toward o t s = MoveResult.val v) ∧
    move_toward o t s ≠ MoveResult.noReturn ∧
    (s < |t - o| → Xor' (s < t - o) (t - o < s)) := by
  have hns : ¬ s < 0 := not_lt.2 hs
  refine ⟨?_, ?_, ?_⟩
  · unfold move_toward
    rw [if_neg hns]
    by_cases h1 : |t - o| ≤ s
    · exact ⟨t, by rw [if_pos h1]⟩
    · rcases lt_abs.1 (not_le.1 h1) with h2 | h2
      · exact ⟨o + s, by rw [if_neg h1, if_pos h2]⟩
      · have hne : ¬ s < t - o := by linarith
        have hlt : t - o < s := by linarith
        exact ⟨o - s, by rw [if_neg h1, if_neg hne, if_pos hlt]⟩
  · intro hcon
    unfold move_toward at hcon
    rw [if_neg hns] at hcon
    by_cases h1 : |t - o| ≤ s
    · rw [if_pos h1] at hcon; exact MoveResult.noConfusion hcon
    · rcases lt_abs.1 (not_le.1 h1) with h2 | h2
      · rw [if_neg h1, if_pos h2] at hcon; exact MoveResult.noConfusion hcon
      · have hne : ¬ s < t - o := by linarith
        have hlt : t - o < s := by linarith
        rw [if_neg h1, if_neg hne, if_pos hlt] at hcon
        exact MoveResult.noConfusion hcon
  · intro h1
    rcases lt_abs.1 h1 with h2 | h2
    · exact Or.inl ⟨h2, by linarith⟩
    · exact Or.inr ⟨by linarith, by linarith⟩

/-- Witness for C10: with origin `0`, target `5` and speed `1` the call returns a
number, the fall-through is not taken, and exactly one strict comparison holds. -/
theorem move_toward_no_fallthrough_witness :
    (0:ℚ) ≤ 1 ∧ (∃ v : ℚ, move_toward 0 5 1 = MoveResult.val v) :=
  ⟨by norm_num, (move_toward_no_fallthrough 0 5 1 (by norm_num)).1⟩

/-- For a nonnegative speed, the snap branch of `move_toward` fires whenever the
remaining distance is within the speed, and the loop step returns the target. -/
theorem moveStep_snap (t s x : ℚ) (hs : 0 ≤ s) (h : |t - x| ≤ s) :
    moveStep t s x = t := by
  unfold moveStep move_toward
  rw [if_neg (not_lt.2 hs), if_pos h]

/-- When the target is more than `speed` above the current point, the step moves up
by exactly `speed`. -/
theorem moveStep_up (t s x : ℚ) (hs : 0 ≤ s) (h : s < t - x) :
    moveStep t s x = x + s := by
  have habs : ¬ |t - x| ≤ s := by
    rw [not_le, lt_abs]; exact Or.inl h
  unfold moveStep move_toward
  rw [if_neg (not_lt.2 hs), if_neg habs, if_pos h]

/-- When the target is more than `speed` below the current point, the step moves
down by exactly `speed`. -/
theorem moveStep_down (t s x : ℚ) (hs : 0 ≤ s) (h : t - x < -s) :
    moveStep t s x = x - s := by
  have habs : ¬ |t - x| ≤ s := by
    rw [not_le, lt_abs]; right; linarith
  have hng : ¬ s < t - x := by linarith
  have hlt : t - x < s := by linarith
  unfold moveStep move_toward
  rw [if_neg (not_lt.2 hs), if_neg habs, if_neg hng, if_pos hlt]

/-- A far step shrinks the remaining distance by exactly the speed. -/
theorem moveStep_far (t s x : ℚ) (hs : 0 < s) (h : s < |t - x|) :
    |t - moveStep t s x| = |t - x| - s := by
  rcases lt_abs.1 h with h2 | h2
  · rw [moveStep_up t s x hs.le h2]
    rw [abs_of_pos (by linarith : (0:ℚ) < t - x), abs_of_pos (by linarith)]
    ring
  · have h3 : t - x < -s := by linarith
    rw [moveStep_down t s x hs.le h3]
    rw [abs_of_neg (by linarith : t - x < 0), abs_of_neg (by linarith : t - (x - s) < 0)]
    ring

/-- Iterating the step reaches the target exactly once the step budget covers the
initial distance. -/
theorem moveStep_reach (t s : ℚ) (hs : 0 < s) :
    ∀ (n : ℕ) (o : ℚ), |t - o| ≤ n * s → (moveStep t s)^[n] o = t := by
  intro n
  induction n with
  | zero =>
    intro o h
    simp only [Nat.cast_zero, zero_mul] at h
    have h1 : t - o = 0 := abs_nonpos_iff.1 h
    have h2 : o = t := by linarith
    simp [h2]
  | succ n ih =>
    intro o h
    rw [Function.iterate_succ_apply]
    by_cases hle : |t - o| ≤ s
    · rw [moveStep_snap t s o hs.le hle]
      apply ih
      have h0 : (0:ℚ) ≤ n * s := by positivity
      simpa using h0
    · apply ih
      rw [moveStep_far t s o hs (not_le.1 hle)]
      have : |t - o| ≤ (n + 1) * s := by push_cast at h ⊢; linarith
      linarith

/-- Every iterate of the step stays between the origin and the target. -/
theorem moveStep_bounds (t s : ℚ) (hs : 0 < s) (o : ℚ) :
    ∀ n : ℕ, min o t ≤ (moveStep t s)^[n] o ∧ (moveStep t s)^[n] o ≤ max o t := by
  intro n
  induction n with
  | zero => exact ⟨min_le_left o t, le_max_left o t⟩
  | succ n ih =>
    rw [Function.iterate_succ_apply']
    obtain ⟨h1, h2⟩ := ih
    by_cases hsn : |t - (moveStep t s)^[n] o| ≤ s
    · rw [moveStep_snap t s _ hs.le hsn]
      exact ⟨min_le_right o t, le_max_right o t⟩
    · rcases lt_abs.1 (not_le.1 hsn) with hup | hdn
      · rw [moveStep_up t s _ hs.le hup]
        constructor
        · linarith
        · have : (moveStep t s)^[n] o + s < t := by linarith
          have ht : t ≤ max o t := le_max_right o t
          linarith
      · have hd : t - (moveStep t s)^[n] o < -s := by linarith
        rw [moveStep_down t s _ hs.le hd]
        constructor
        · have ht : min o t ≤ t := min_le_right o t
          linarith
        · linarith

/-- C3: for every origin `o`, target `t` and speed `s > 0`, iterating
`x ↦ move_toward(x, t, s)` starting at `o` returns exactly `t` after
`⌈|t - o| / s⌉` calls, no iterate ever passes beyond the target (every iterate
stays between the origin and the target), and a single call returns `t` exactly
whenever `|t - x| ≤ s`. -/
theorem move_toward_converges (o t s : ℚ) (hs : 0 < s) :
    (moveStep t s)^[(⌈|t - o| / s⌉).toNat] o = t ∧
    (∀ n : ℕ, min o t ≤ (moveStep t s)^[n] o ∧ (moveStep t s)^[n] o ≤ max o t) ∧
    (∀ x : ℚ, |t - x| ≤ s → moveStep t s x = t) := by
  refine ⟨?_, moveStep_bounds t s hs o, fun x hx => moveStep_snap t s x hs.le hx⟩
  apply moveStep_reach t s hs
  have h0 : 0 ≤ |t - o| / s := div_nonneg (abs_nonneg _) hs.le
  have hceil : (0:ℤ) ≤ ⌈|t - o| / s⌉ := Int.ceil_nonneg h0
  have hle : |t - o| / s ≤ (⌈|t - o| / s⌉ : ℚ) := Int.le_ceil _
  have hcast : (((⌈|t - o| / s⌉).toNat : ℕ) : ℚ) = ((⌈|t - o| / s⌉ : ℤ) : ℚ) := by
    exact_mod_cast Int.toNat_of_nonneg hceil
  rw [hcast]
  exact (div_le_iff₀ hs).1 hle

/-- Witness for C3: from origin `0` to target `10` at speed `3`, the iteration
reaches `10` in `⌈10/3⌉ = 4` calls. -/
theorem move_toward_converges_witness :
    (0:ℚ) < 3 ∧ (moveStep 10 3)^[(⌈|(10:ℚ) - 0| / 3⌉).toNat] 0 = 10 :=
  ⟨by norm_num, (move_toward_converges 0 10 3 (by norm_num)).1⟩

/-- Invariant of the `advance_frame` loop: after processing a duplicate-free
snapshot `l`, the live list has lost exactly the snapshot members destroyed by
their own update, and every snapshot member's stored state has been updated once. -/
theorem advanceGo_spec {σ : Type} (upd : σ → σ) (dstr : σ → Bool) :
    ∀ (l : List ℕ) (st : SceneEnt σ), l.Nodup → st.entities.Nodup →
      (advanceGo upd dstr l st).entities =
        st.entities.filter
          (fun x => !(decide (x ∈ l)) || !(dstr (upd (st.store x)))) ∧
      ∀ x : ℕ, (advanceGo upd dstr l st).store x =
        if x ∈ l then upd (st.store x) else st.store x := by
  intro l
  induction l with
  | nil =>
    intro st _ _
    constructor
    · simp [advanceGo]
    · intro x; simp [advanceGo]
  | cons r rest ih =>
    intro st hl hst
    have hr : r ∉ rest := (List.nodup_cons.1 hl).1
    have hrest : rest.Nodup := (List.nodup_cons.1 hl).2
    by_cases hd : dstr (upd (st.store r)) = true
    · have hstep : advanceGo upd dstr (r :: rest) st =
          advanceGo upd dstr rest
            ⟨st.entities.erase r, Function.update st.store r (upd (st.store r))⟩ := by
        simp [advanceGo, Function.update_same, hd]
      obtain ⟨he, hs⟩ := ih
        ⟨st.entities.erase r, Function.update st.store r (upd (st.store r))⟩
        hrest (hst.erase r)
      rw [hstep]
      constructor
      · rw [he]
        simp only [hst.erase_eq_filter r, List.filter_filter]
        apply List.filter_congr
        intro x _
        by_cases hxr : x = r
        · subst hxr
          simp [hd, hr]
        · simp [Function.update_noteq hxr, hxr, List.mem_cons]
      · intro x
        rw [hs x]
        by_cases hxr : x = r
        · subst hxr
          simp [hr, Function.update_same]
        · simp [Function.update_noteq hxr, hxr, List.mem_cons]
    · have hstep : advanceGo upd dstr (r :: rest) st =
          advanceGo upd dstr rest
            ⟨st.entities, Function.update st.store r (upd (st.store r))⟩ := by
        simp [advanceGo, Function.update_same, hd]
      obtain ⟨he, hs⟩ := ih
        ⟨st.entities, Function.update st.store r (upd (st.store r))⟩
        hrest hst
      rw [hstep]
      constructor
      · rw [he]
        apply List.filter_congr
        intro x _
        by_cases hxr : x = r
        · subst hxr
          simp [hd, hr]
        · simp [Function.update_noteq hxr, hxr, List.mem_cons]
      · intro x
        rw [hs x]
        by_cases hxr : x = r
        · subst hxr
          simp [hr, Function.update_same]
        · simp [Function.update_noteq hxr, hxr, List.mem_cons]

/-- C4: `advance_frame` iterates a snapshot of the entity collection taken at
entry, invokes the update hook on each entity of that snapshot, and removes from
the live collection, within the same pass, every entity whose destroyed flag is set
after its own update; the survivors remain in their original relative order (the
live list is exactly the entry list filtered on the updated destroyed flag). -/
theorem advance_frame_spec {σ : Type} (upd : σ → σ) (dstr : σ → Bool)
    (st : SceneEnt σ) (h : st.entities.Nodup) :
    (advance_frame upd dstr st).entities =
      st.entities.filter (fun r => !(dstr (upd (st.store r)))) ∧
    ∀ r ∈ st.entities, (advance_frame upd dstr st).store r = upd (st.store r) := by
  obtain ⟨he, hs⟩ := advanceGo_spec upd dstr st.entities st h h
  constructor
  · rw [advance_frame, he]
    apply List.filter_congr
    intro x hx
    simp [hx]
  · intro r hr
    rw [advance_frame, hs r, if_pos hr]

/-- Witness for C4: in a scene with entities `0` and `1` where entity `0` is
destroyed by its update, the pass removes entity `0` and keeps entity `1`. -/
theorem advance_frame_spec_witness :
    (advance_frame id (fun b => b) scene_w).entities = [1] :=
  ((advance_frame_spec id (fun b => b) scene_w (by decide)).1).trans (by decide)

/-- C5: `test_collisions(e)` fails with `EntityNotInScene` exactly when `e` is not a
member of the scene's entity collection; otherwise it returns exactly those entities
of the scene other than `e` whose hitbox rectangle overlaps `e`'s hitbox rectangle
(overlap of axis-aligned rectangles being overlap of both coordinate ranges, per
`Rect.colliderect`). -/
theorem test_collisions_spec (hitbox : ℕ → Rect) (entities : List ℕ) (entity : ℕ) :
    (test_collisions hitbox entities entity = none ↔ entity ∉ entities) ∧
    (entities.Nodup → ∀ l, test_collisions hitbox entities entity = some l →
      ∀ x : ℕ, x ∈ l ↔
        x ∈ entities ∧ x ≠ entity ∧
        Rect.colliderect (hitbox entity) (hitbox x) = true) := by
  constructor
  · constructor
    · intro hnone
      intro hmem
      rw [test_collisions, if_pos hmem] at hnone
      exact Option.noConfusion hnone
    · intro hnmem
      rw [test_collisions, if_neg hnmem]
  · intro hnd l hsome x
    by_cases hmem : entity ∈ entities
    · rw [test_collisions, if_pos hmem] at hsome
      obtain rfl : (entities.erase entity).filter
          (fun e => Rect.colliderect (hitbox entity) (hitbox e)) = l :=
        Option.some.inj hsome
      simp only [List.mem_filter, hnd.mem_erase_iff]
      tauto
    · rw [test_collisions, if_neg hmem] at hsome
      exact Option.noConfusion hsome

/-- Witness for C5: with the spec's rectangles — entity 0 at (0,0,10,10), entity 1
at (5,5,10,10), entity 2 at (20,20,5,5) — querying entity 0 reports exactly the
overlapping entity 1. -/
theorem test_collisions_spec_witness :
    1 ∈ [0, 1, 2] ∧ (1:ℕ) ≠ 0 ∧
    Rect.colliderect (hitbox_w 0) (hitbox_w 1) = true :=
  ((test_collisions_spec hitbox_w [0, 1, 2] 0).2 (by decide) [1]
    (by norm_num [test_collisions, hitbox_w, Rect.colliderect, List.erase]) 1).mp
    (by decide)

/-- C6: `remove_scene(name)` raises `SceneNotActiveError` exactly when `name` is
absent from the active-scene table; otherwise it runs that scene's `on_delete` hook
and appends the scene's name to the deferred-removal queue, leaving the table entry
in place (only the main loop's drain deletes it). Consequently, adding `"Title"`
and removing it in the same frame fires `on_awake` then `on_delete`, the name is
absent from the table after the queue drains, and a second removal then raises
`SceneNotActiveError`. -/
theorem remove_scene_spec (st : ClientState) (nm : String) :
    (remove_scene st nm = none ↔ lookupA st.running_scenes nm = none) ∧
    (∀ sc : SceneObj, lookupA st.running_scenes nm = some sc →
      remove_scene st nm = some { st with
        running_scenes := updateA st.running_scenes nm sc.on_delete,
        deleted_scenes_queue := st.deleted_scenes_queue ++ [sc.on_delete.name] }) ∧
    (add_scene title_client0 "Title" = some title_client1 ∧
      lookupA title_client1.running_scenes "Title" = some title_scene_awake ∧
      title_scene_awake.awakened = true ∧ title_scene_awake.deleted = false ∧
      remove_scene title_client1 "Title" = some title_client2 ∧
      lookupA title_client2.running_scenes "Title" = some title_scene_deleted ∧
      title_scene_deleted.deleted = true ∧
      drain_deleted_scenes title_client2 = title_client3 ∧
      lookupA title_client3.running_scenes "Title" = none ∧
      remove_scene title_client3 "Title" = none) := by
  refine ⟨⟨?_, ?_⟩, ?_, ?_⟩
  · intro hnone
    rcases hl : lookupA st.running_scenes nm with _ | sc
    · rfl
    · rw [remove_scene, hl] at hnone
      exact Option.noConfusion hnone
  · intro hl
    rw [remove_scene, hl]
  · intro sc hl
    rw [remove_scene, hl]
  · exact ⟨by decide, by decide, rfl, rfl, by decide, by decide, rfl, by decide,
      rfl, rfl⟩

/-- Witness for C6: removing `"Title"` from the drained client (where the entry is
gone) yields the `SceneNotActiveError` outcome. -/
theorem remove_scene_spec_witness :
    remove_scene title_client3 "Title" = none :=
  (remove_scene_spec title_client3 "Title").1.mpr (by decide)

/-- C7: for every registered scene name, `add_scene` builds a fresh instance of the
registered prototype (its identity differs from every instance already in the
active table), fires `on_awake` on it, and inserts it into the active-scene table
keyed by the scene's derived name. -/
theorem add_scene_spec (st : ClientState) (nm : String)
    (hreg : nm ∈ st.registered_scenes)
    (hids : ∀ p ∈ st.running_scenes, p.2.id < st.next_id) :
    ∃ sc : SceneObj,
      add_scene st nm = some { st with
        running_scenes := updateA st.running_scenes sc.name sc,
        next_id := st.next_id + 1 } ∧
      sc = (instantiate_scene nm st.next_id).on_awake ∧
      sc.className = nm ∧ sc.name = nm ∧ sc.awakened = true ∧
      ∀ p ∈ st.running_scenes, p.2.id ≠ sc.id := by
  refine ⟨(instantiate_scene nm st.next_id).on_awake, ?_, rfl, rfl, rfl, rfl, ?_⟩
  · rw [add_scene, if_pos hreg]
  · intro p hp
    exact Nat.ne_of_lt (hids p hp)

/-- Witness for C7: adding the registered `"Title"` scene to the empty client
produces the awakened fresh instance keyed under `"Title"`. -/
theorem add_scene_spec_witness :
    add_scene title_client0 "Title" = some title_client1 := by
  obtain ⟨sc, hadd, hsc, -, -, -, -⟩ :=
    add_scene_spec title_client0 "Title" (by decide) (by intro p hp; cases hp)
  rw [hadd, hsc]
  decide

/-- The per-wall call inside `raycast`: `eval_segment_intersection` yields the
computed intersection point for a qualifying wall and the sentinel `coord2`
otherwise. -/
theorem esi_eq_ite (p1 p2 : Pt) (w : Pt × Pt) :
    eval_segment_intersection p1 p2 w.1 w.2 =
      if qualifies p1 p2 w then hitPoint p1 p2 w else p2 := by
  unfold eval_segment_intersection
  by_cases hd : dem p1 p2 w.1 w.2 = 0
  · rw [if_pos hd, if_neg]
    intro hq
    exact hq.1 hd
  · rw [if_neg hd]
    by_cases hin : 0 < tval p1 p2 w.1 w.2 ∧ tval p1 p2 w.1 w.2 < 1 ∧
        0 < uval p1 p2 w.1 w.2 ∧ uval p1 p2 w.1 w.2 < 1
    · rw [if_pos hin, if_pos ⟨hd, hin.1, hin.2.1, hin.2.2.1, hin.2.2.2⟩]
      rfl
    · rw [if_neg hin, if_neg]
      intro hq
      exact hin ⟨hq.2.1, hq.2.2.1, hq.2.2.2.1, hq.2.2.2.2⟩

/-- The intersection point of a non-parallel wall lies on the ray through `p1` and
`p2` at parameter `t`: the `u`-parametrisation along the wall and the
`t`-parametrisation along the ray name the same point. -/
theorem hitPoint_on_ray :
    ∀ (p1 p2 : Pt) (w : Pt × Pt), dem p1 p2 w.1 w.2 ≠ 0 →
      hitPoint p1 p2 w =
        (p1.1 + tval p1 p2 w.1 w.2 * (p2.1 - p1.1),
         p1.2 + tval p1 p2 w.1 w.2 * (p2.2 - p1.2))
  | (x1, y1), (x2, y2), ((x3, y3), (x4, y4)), h => by
    simp only [dem] at h
    simp only [hitPoint, tval, uval, dem, Prod.mk.injEq]
    constructor
    · field_simp
      ring
    · field_simp
      ring

/-- A qualifying hit is strictly closer to the origin than the target is: the hit
sits at parameter `t ∈ (0,1)` on the ray, and the ray has positive length since a
degenerate ray makes `dem = 0`. -/
theorem distSq_hitPoint_lt (p1 p2 : Pt) (w : Pt × Pt) (h : qualifies p1 p2 w) :
    distSq p1 (hitPoint p1 p2 w) < distSq p1 p2 := by
  obtain ⟨hd, ht0, ht1, hu0, hu1⟩ := h
  rw [hitPoint_on_ray p1 p2 w hd]
  have hsq : distSq p1
      (p1.1 + tval p1 p2 w.1 w.2 * (p2.1 - p1.1),
       p1.2 + tval p1 p2 w.1 w.2 * (p2.2 - p1.2)) =
      (tval p1 p2 w.1 w.2) ^ 2 * distSq p1 p2 := by
    simp only [distSq]
    ring
  rw [hsq]
  have hge : 0 ≤ distSq p1 p2 := by
    unfold distSq
    positivity
  have hpos : 0 < distSq p1 p2 := by
    rcases eq_or_lt_of_le hge with heq | hlt
    · exfalso
      apply hd
      unfold distSq at heq
      have a1 : p1.1 - p2.1 = 0 := by
        nlinarith [sq_nonneg (p1.1 - p2.1), sq_nonneg (p1.2 - p2.2)]
      have a2 : p1.2 - p2.2 = 0 := by
        nlinarith [sq_nonneg (p1.1 - p2.1), sq_nonneg (p1.2 - p2.2)]
      unfold dem
      rw [a1, a2]
      ring
    · exact hlt
  have ht2 : (tval p1 p2 w.1 w.2) ^ 2 < 1 := by nlinarith
  nlinarith

/-- Invariant of the `raycast` scan: starting from a tracked point whose squared
length is the tracked length and does not exceed the target's, the scan returns
either the tracked point or the hit point of some qualifying wall, never increases
the tracked length, and ends at most as far as every qualifying wall's hit. -/
theorem raycastGo_spec (p1 p2 : Pt) :
    ∀ (ws : List (Pt × Pt)) (hp : Pt) (sl : ℚ),
      sl = distSq p1 hp → sl ≤ distSq p1 p2 →
      (raycastGo p1 p2 ws hp sl = hp ∨
        ∃ w ∈ ws, qualifies p1 p2 w ∧ raycastGo p1 p2 ws hp sl = hitPoint p1 p2 w) ∧
      distSq p1 (raycastGo p1 p2 ws hp sl) ≤ sl ∧
      ∀ w ∈ ws, qualifies p1 p2 w →
        distSq p1 (raycastGo p1 p2 ws hp sl) ≤ distSq p1 (hitPoint p1 p2 w) := by
  intro ws
  induction ws with
  | nil =>
    intro hp sl h1 h2
    refine ⟨Or.inl rfl, le_of_eq h1.symm, ?_⟩
    intro w hw
    exact absurd hw (List.not_mem_nil w)
  | cons w ws ih =>
    intro hp sl h1 h2
    rw [show raycastGo p1 p2 (w :: ws) hp sl =
        if sl > distSq p1 (eval_segment_intersection p1 p2 w.1 w.2) then
          raycastGo p1 p2 ws (eval_segment_intersection p1 p2 w.1 w.2)
            (distSq p1 (eval_segment_intersection p1 p2 w.1 w.2))
        else raycastGo p1 p2 ws hp sl from rfl]
    rw [esi_eq_ite p1 p2 w]
    by_cases hq : qualifies p1 p2 w
    · rw [if_pos hq]
      by_cases hlt : sl > distSq p1 (hitPoint p1 p2 w)
      · rw [if_pos hlt]
        obtain ⟨ha, hb, hc⟩ := ih (hitPoint p1 p2 w)
          (distSq p1 (hitPoint p1 p2 w)) rfl (le_of_lt (lt_of_lt_of_le hlt h2))
        refine ⟨?_, le_trans hb (le_of_lt hlt), ?_⟩
        · rcases ha with he | ⟨w2, hw2, hq2, he⟩
          · exact Or.inr ⟨w, List.mem_cons_self w ws, hq, he⟩
          · exact Or.inr ⟨w2, List.mem_cons_of_mem w hw2, hq2, he⟩
        · intro w2 hw2 hq2
          rcases List.mem_cons.1 hw2 with rfl | hmem
          · exact hb
          · exact hc w2 hmem hq2
      · rw [if_neg hlt]
        obtain ⟨ha, hb, hc⟩ := ih hp sl h1 h2
        refine ⟨?_, hb, ?_⟩
        · rcases ha with he | ⟨w2, hw2, hq2, he⟩
          · exact Or.inl he
          · exact Or.inr ⟨w2, List.mem_cons_of_mem w hw2, hq2, he⟩
        · intro w2 hw2 hq2
          rcases List.mem_cons.1 hw2 with rfl | hmem
          · exact le_trans hb (not_lt.1 hlt)
          · exact hc w2 hmem hq2
    · rw [if_neg hq]
      have hngt : ¬ sl > distSq p1 p2 := not_lt.2 h2
      rw [if_neg hngt]
      obtain ⟨ha, hb, hc⟩ := ih hp sl h1 h2
      refine ⟨?_, hb, ?_⟩
      · rcases ha with he | ⟨w2, hw2, hq2, he⟩
        · exact Or.inl he
        · exact Or.inr ⟨w2, List.mem_cons_of_mem w hw2, hq2, he⟩
      · intro w2 hw2 hq2
        rcases List.mem_cons.1 hw2 with rfl | hmem
        · exact absurd hq2 hq
        · exact hc w2 hmem hq2

/-- C1: `raycast(origin, target, walls)` returns the hit point of a qualifying wall
(one whose `eval_segment_intersection` parameters are both strictly inside `(0,1)`)
of minimal Euclidean distance from the origin whenever some wall qualifies, and
returns the target when no wall qualifies; for the single wall from `(0,10)` to
`(10,10)` and the ray from `(0,0)` to `(10,20)`, the result is `(5,10)`. -/
theorem raycast_spec (c1 c2 : Pt) (walls : List (Pt × Pt)) :
    ((∀ w ∈ walls, ¬ qualifies c1 c2 w) → raycast c1 c2 walls = c2) ∧
    ((∃ w ∈ walls, qualifies c1 c2 w) →
      ∃ w ∈ walls, qualifies c1 c2 w ∧ raycast c1 c2 walls = hitPoint c1 c2 w ∧
        ∀ w2 ∈ walls, qualifies c1 c2 w2 →
          distSq c1 (raycast c1 c2 walls) ≤ distSq c1 (hitPoint c1 c2 w2)) ∧
    raycast (0, 0) (10, 20) [((0, 10), (10, 10))] = (5, 10) := by
  obtain ⟨ha, hb, hc⟩ := raycastGo_spec c1 c2 walls c2 (distSq c1 c2) rfl le_rfl
  refine ⟨?_, ?_, ?_⟩
  · intro hnone
    rcases ha with h | ⟨w, hw, hq, _⟩
    · exact h
    · exact absurd hq (hnone w hw)
  · rintro ⟨w0, hw0, hq0⟩
    rcases ha with h | ⟨w, hw, hq, he⟩
    · exfalso
      have h1 := hc w0 hw0 hq0
      have h2 := distSq_hitPoint_lt c1 c2 w0 hq0
      rw [show raycastGo c1 c2 walls c2 (distSq c1 c2) = c2 from h] at h1
      linarith
    · exact ⟨w, hw, hq, he, fun w2 hw2 hq2 => hc w2 hw2 hq2⟩
  · norm_num [raycast, raycastGo, eval_segment_intersection, dem, tval, uval, distSq]

/-- Witness for C1: with no walls at all, no wall qualifies and the raycast returns
the target unchanged. -/
theorem raycast_spec_witness :
    raycast (0, 0) (1, 1) [] = (1, 1) :=
  (raycast_spec (0, 0) (1, 1) []).1 (by simp)
